import Mathlib

set_option maxRecDepth 100000

/-!
Verification development for the constrained expression evaluator of the
calculator tool (src/aytchmcp/tools/calculator.py).

Embedding conventions:

* Strings are modelled over `List Char`; the regular-expression character
  classes of the source (`\w`, `\s`, `\d`) are modelled over their ASCII
  fragment, which is the fragment exercised by every claim.
* CPython numbers (int and float) are modelled by one type of exact
  rationals, `PyRat`.  Arithmetic on `+ - * / // **` over this type agrees
  with CPython wherever the CPython result is exact; a library function
  whose true value is irrational (for example `sin 1`) is modelled as a
  failure marked "model:" because a binary float result has no exact
  rational image.  No claim depends on such values.
* `result.is_integer()` (calculator.py line 122) is modelled as the
  mathematical integrality test.  This is the behaviour on CPython >= 3.12
  where `int.is_integer` exists; on the 3.9-3.11 interpreters named in the
  package classifiers an integer-typed result would instead raise
  `AttributeError` and surface as the structured error output.
* The constants `pi`, `e`, `tau` are the exact rational values of the IEEE
  double constants `math.pi`, `math.e`, `math.tau`.
* Python-level exceptions are modelled by `Except String`; the messages are
  normalized (no quote characters) but keep the identifying parts, in
  particular the offending identifier of an unknown-function error.
-/

/-! ## Character classes (ASCII fragment of the regex classes used) -/

/-- Model of the regex class `\d` (ASCII): code points 48..57. -/
def pyIsDigit (c : Char) : Bool := 48 ≤ c.toNat && c.toNat ≤ 57

/-- ASCII letters, the letter part of the regex class `\w`. -/
def pyIsAlpha (c : Char) : Bool :=
  (65 ≤ c.toNat && c.toNat ≤ 90) || (97 ≤ c.toNat && c.toNat ≤ 122)

/-- Model of the regex class `\s` (ASCII): space, tab, LF, VT, FF, CR. -/
def pyIsSpace (c : Char) : Bool :=
  c.toNat = 32 || c.toNat = 9 || c.toNat = 10 || c.toNat = 11 || c.toNat = 12 || c.toNat = 13

/-- Model of the regex class `\w` (ASCII): letters, digits, underscore. -/
def pyIsWordChar (c : Char) : Bool := pyIsAlpha c || pyIsDigit c || c = '_'

/-- First character of the identifier pattern `[a-zA-Z_]`. -/
def pyIsIdentStart (c : Char) : Bool := pyIsAlpha c || c = '_'

/-- The character class kept by the sanitizer strip
`re.sub(r'[^0-9+\-*/().,%\s\w]', '', expression)` (calculator.py line 159). -/
def allowedChar (c : Char) : Bool :=
  pyIsDigit c || c = '+' || c = '-' || c = '*' || c = '/' || c = '(' || c = ')' ||
    c = '.' || c = ',' || c = '%' || pyIsSpace c || pyIsWordChar c

/-- The fast-path class `^[\d\s+\-*/().]+$` of `_evaluate_expression`
(calculator.py line 183), stated over code points: `+ - * / ( ) .` are
43, 45, 42, 47, 40, 41, 46. -/
def isSimpleArithChar (c : Char) : Bool :=
  pyIsDigit c || pyIsSpace c || c.toNat = 43 || c.toNat = 45 || c.toNat = 42 ||
    c.toNat = 47 || c.toNat = 40 || c.toNat = 41 || c.toNat = 46

/-- `re.match(r'^[\d\s+\-*/().]+$', expression)` succeeds: the expression is
nonempty and every character is in the fast-path class. -/
def isSimpleArith (l : List Char) : Bool := !l.isEmpty && l.all isSimpleArithChar

/-! ## The sanitizer `_clean_expression` (calculator.py lines 148-167) -/

/-- Replacement of a single character by a character list, applied to every
position; this is the semantics of `str.replace` with a one-character
pattern. -/
def charConcatMap (f : Char → List Char) : List Char → List Char
  | [] => []
  | c :: rest => f c ++ charConcatMap f rest

/-- `expression.replace('%', '/100*')` on one character. -/
def percentSub (c : Char) : List Char :=
  if c = '%' then ['/', '1', '0', '0', '*'] else [c]

/-- `expression.replace('^', '**')` on one character. -/
def caretSub (c : Char) : List Char :=
  if c = '^' then ['*', '*'] else [c]

/-- `_clean_expression` on character lists: strip every character outside the
allowed class, then rewrite `%`, then rewrite `^`.  Note that `^` is not in
the allowed class, so the strip removes every `^` before the `^` rewrite
can see one. -/
def cleanExpressionL (l : List Char) : List Char :=
  charConcatMap caretSub (charConcatMap percentSub (l.filter allowedChar))

/-- `_clean_expression` (calculator.py lines 148-167). -/
def _clean_expression (s : String) : String := ⟨cleanExpressionL s.data⟩

/-! ## Exact rational numbers that kernel-reduce -/

/-- Exact rational number: numerator and positive denominator, kept in lowest
terms by the smart constructors below.  Models both CPython `int` and
`float` results (a float is a dyadic rational). -/
structure PyRat where
  num : Int
  den : Nat
deriving DecidableEq

/-- Normalize a numerator/denominator pair to lowest terms. -/
def PyRat.norm (q : PyRat) : PyRat :=
  if q.den = 0 then ⟨0, 1⟩
  else
    let g := Nat.gcd q.num.natAbs q.den
    ⟨q.num / (g : Int), q.den / g⟩

def PyRat.mk' (n : Int) (d : Nat) : PyRat := PyRat.norm ⟨n, d⟩

def PyRat.ofInt (n : Int) : PyRat := ⟨n, 1⟩

def PyRat.ofNat (n : Nat) : PyRat := ⟨(n : Int), 1⟩

def PyRat.zero : PyRat := ⟨0, 1⟩

def PyRat.one : PyRat := ⟨1, 1⟩

def PyRat.isZero (q : PyRat) : Bool := q.num == 0

def PyRat.addQ (a b : PyRat) : PyRat :=
  PyRat.mk' (a.num * (b.den : Int) + b.num * (a.den : Int)) (a.den * b.den)

def PyRat.negQ (a : PyRat) : PyRat := ⟨-a.num, a.den⟩

def PyRat.subQ (a b : PyRat) : PyRat := PyRat.addQ a (PyRat.negQ b)

def PyRat.mulQ (a b : PyRat) : PyRat := PyRat.mk' (a.num * b.num) (a.den * b.den)

/-- Exact division; the caller must rule out a zero divisor first, as the
evaluator does. -/
def PyRat.divQ (a b : PyRat) : PyRat :=
  if 0 ≤ b.num then PyRat.mk' (a.num * (b.den : Int)) (a.den * b.num.natAbs)
  else PyRat.mk' (-(a.num * (b.den : Int))) (a.den * b.num.natAbs)

/-- Multiplicative inverse of a nonzero value. -/
def PyRat.invQ (a : PyRat) : PyRat :=
  if 0 ≤ a.num then ⟨(a.den : Int), a.num.natAbs⟩ else ⟨-(a.den : Int), a.num.natAbs⟩

def PyRat.powNat (a : PyRat) : Nat → PyRat
  | 0 => ⟨1, 1⟩
  | n + 1 => PyRat.mulQ a (PyRat.powNat a n)

/-- Integer power; a negative exponent inverts, and the caller rules out a
zero base with negative exponent. -/
def PyRat.powInt (a : PyRat) (n : Int) : PyRat :=
  if 0 ≤ n then PyRat.powNat a n.toNat else PyRat.invQ (PyRat.powNat a (-n).toNat)

def PyRat.ltQ (a b : PyRat) : Bool := a.num * (b.den : Int) < b.num * (a.den : Int)

def PyRat.leQ (a b : PyRat) : Bool := a.num * (b.den : Int) ≤ b.num * (a.den : Int)

/-- Floor of a rational, via flooring integer division. -/
def PyRat.floorQ (q : PyRat) : Int := Int.fdiv q.num (q.den : Int)

def PyRat.ceilQ (q : PyRat) : Int := -(Int.fdiv (-q.num) (q.den : Int))

/-- Truncation toward zero, the semantics of `math.trunc`. -/
def PyRat.truncQ (q : PyRat) : Int := Int.tdiv q.num (q.den : Int)

def PyRat.absQ (q : PyRat) : PyRat := ⟨(q.num.natAbs : Int), q.den⟩

def PyRat.minQ (a b : PyRat) : PyRat := if PyRat.leQ a b then a else b

def PyRat.maxQ (a b : PyRat) : PyRat := if PyRat.leQ a b then b else a

/-- Round half to even, the tie rule of CPython `round` and of float
formatting. -/
def PyRat.roundHalfEven (q : PyRat) : Int :=
  let f := PyRat.floorQ q
  let rem2 : Int := 2 * (q.num - f * (q.den : Int))
  if rem2 < (q.den : Int) then f
  else if (q.den : Int) < rem2 then f + 1
  else if f % 2 = 0 then f else f + 1

/-! ## Decimal rendering (the model of `str(int(...))` and of `f"... :.pf"`) -/

/-- One decimal digit as a character. -/
def digitChar (d : Nat) : Char :=
  match d with
  | 0 => '0' | 1 => '1' | 2 => '2' | 3 => '3' | 4 => '4'
  | 5 => '5' | 6 => '6' | 7 => '7' | 8 => '8' | 9 => '9'
  | _ => '?'

def natDigitsAux : Nat → Nat → List Char
  | 0, _ => []
  | fuel + 1, n => if n < 10 then [digitChar n] else natDigitsAux fuel (n / 10) ++ [digitChar (n % 10)]

/-- Decimal rendering of a natural number. -/
def natRender (n : Nat) : String := ⟨natDigitsAux (n + 1) n⟩

/-- Decimal rendering of an integer, the model of `str(int(result))`
(calculator.py line 123). -/
def intRender (i : Int) : String :=
  if i < 0 then "-" ++ natRender i.natAbs else natRender i.natAbs

/-- Exactly `p` decimal digits of `n`, zero padded on the left; `n` is the
fractional numerator scaled by `10 ^ p`. -/
def fracDigits : Nat → Nat → List Char
  | 0, _ => []
  | p + 1, n => fracDigits p (n / 10) ++ [digitChar (n % 10)]

/-- Model of the fixed-point format `f"{result:.{precision}f}"`
(calculator.py line 125) on an exact rational, with the half-even tie
rule. -/
def formatFixed (q : PyRat) (p : Nat) : String :=
  let sign := if q.num < 0 then "-" else ""
  let a : PyRat := PyRat.absQ q
  let scaled := PyRat.mulQ a (PyRat.ofNat (Nat.pow 10 p))
  let n := (PyRat.roundHalfEven scaled).toNat
  if p = 0 then sign ++ natRender n
  else sign ++ natRender (n / Nat.pow 10 p) ++ "." ++ ⟨fracDigits p (n % Nat.pow 10 p)⟩

/-- Number of digits printed after the decimal point (0 when no point is
printed). -/
def countAfterPoint (s : String) : Nat :=
  if '.' ∈ s.data then (s.data.reverse.takeWhile (fun c => c != '.')).length else 0

/-! ## Tokens and the tokenizer (model of the literal/operator grammar that
CPython `eval` applies to the sanitized expression) -/

inductive Tok where
  | num (q : PyRat)
  | ident (s : String)
  | plus | minus | star | slash | dstar | dslash | lparen | rparen | comma
deriving DecidableEq

/-- Consume a run `digit (["_"] digit)*`, the `digitpart` of the Python
number grammar; a dangling underscore is the "invalid decimal literal"
error. -/
def lexDigits : Nat → List Char → Except String (List Nat × List Char)
  | 0, _ => .error "model: tokenizer fuel exhausted"
  | _ + 1, [] => .ok ([], [])
  | fuel + 1, c :: rest =>
    if pyIsDigit c then
      let d := c.toNat - 48
      match rest with
      | '_' :: rest2 =>
        match rest2 with
        | c2 :: _ =>
          if pyIsDigit c2 then do
            let (ds, r) ← lexDigits fuel rest2
            .ok (d :: ds, r)
          else .error "SyntaxError: invalid decimal literal"
        | [] => .error "SyntaxError: invalid decimal literal"
      | _ => do
        let (ds, r) ← lexDigits fuel rest
        .ok (d :: ds, r)
    else .ok ([], c :: rest)

def digitsToNat (ds : List Nat) : Nat := ds.foldl (fun a d => a * 10 + d) 0

/-- Lex one numeric literal starting at the head of `cs` (the caller
guarantees a digit, or a dot followed by a digit).  Follows the CPython
grammar for decimal int and float literals including exponents and digit
group underscores; hex, octal and binary literals are not modelled. -/
def lexNumber (cs : List Char) : Except String (PyRat × List Char) := do
  let fl := cs.length + 1
  let (ipart, r1) ← lexDigits fl cs
  let (fpart, r2, hasDot) ←
    match r1 with
    | '.' :: rest => do
      let (fs, r) ← lexDigits fl rest
      pure (fs, r, true)
    | _ => pure (([] : List Nat), r1, false)
  if ipart.isEmpty && fpart.isEmpty then
    .error "SyntaxError: invalid syntax"
  else
  let (expVal, hasExp, r3) ←
    match r2 with
    | 'e' :: rest | 'E' :: rest => do
      let (sgn, rest2) :=
        match rest with
        | '+' :: rr => ((1 : Int), rr)
        | '-' :: rr => ((-1 : Int), rr)
        | _ => ((1 : Int), rest)
      let (eds, r) ← lexDigits fl rest2
      if eds.isEmpty then .error "SyntaxError: invalid decimal literal"
      else pure (sgn * (digitsToNat eds : Int), true, r)
    | _ => pure ((0 : Int), false, r2)
  -- leading zeros are not permitted in a plain decimal integer literal
  if !hasDot && !hasExp && ipart.length > 1 && ipart.headD 1 = 0 && ipart.any (fun d => d ≠ 0) then
    .error "SyntaxError: leading zeros in decimal integer literals are not permitted"
  else
  -- a word character directly after a number is an invalid literal
  if r3.headD ' ' |> pyIsWordChar then
    .error "SyntaxError: invalid decimal literal"
  else
    let k := fpart.length
    let mant : Int := (digitsToNat ipart : Int) * (Nat.pow 10 k : Int) + (digitsToNat fpart : Int)
    let base := PyRat.mk' mant (Nat.pow 10 k)
    let v := if 0 ≤ expVal then PyRat.mulQ base (PyRat.ofNat (Nat.pow 10 expVal.toNat))
             else PyRat.divQ base (PyRat.ofNat (Nat.pow 10 (-expVal).toNat))
    .ok (v, r3)

/-- The tokenizer for the expression grammar reachable after sanitization:
numbers, identifiers, `+ - * / // ** ( ) ,` and whitespace.  A dot that does
not start a number is rejected: CPython would parse it as attribute access,
whose object semantics is outside this arithmetic embedding (see the header
comment). -/
def tokenize : Nat → List Char → Except String (List Tok)
  | 0, _ => .error "model: tokenizer fuel exhausted"
  | _ + 1, [] => .ok []
  | fuel + 1, c :: rest =>
    if pyIsSpace c then tokenize fuel rest
    else if pyIsDigit c then do
      let (q, r) ← lexNumber (c :: rest)
      let toks ← tokenize fuel r
      .ok (.num q :: toks)
    else if c = '.' then
      match rest with
      | c2 :: _ =>
        if pyIsDigit c2 then do
          let (q, r) ← lexNumber (c :: rest)
          let toks ← tokenize fuel r
          .ok (.num q :: toks)
        else .error "model: attribute access or a stray dot is outside this embedding"
      | [] => .error "SyntaxError: invalid syntax"
    else if pyIsIdentStart c then do
      let name : String := ⟨c :: rest.takeWhile pyIsWordChar⟩
      let toks ← tokenize fuel (rest.dropWhile pyIsWordChar)
      .ok (.ident name :: toks)
    else if c = '*' then
      match rest with
      | '*' :: r2 => do
        let toks ← tokenize fuel r2
        .ok (.dstar :: toks)
      | _ => do
        let toks ← tokenize fuel rest
        .ok (.star :: toks)
    else if c = '/' then
      match rest with
      | '/' :: r2 => do
        let toks ← tokenize fuel r2
        .ok (.dslash :: toks)
      | _ => do
        let toks ← tokenize fuel rest
        .ok (.slash :: toks)
    else if c = '+' then do
      let toks ← tokenize fuel rest
      .ok (.plus :: toks)
    else if c = '-' then do
      let toks ← tokenize fuel rest
      .ok (.minus :: toks)
    else if c = '(' then do
      let toks ← tokenize fuel rest
      .ok (.lparen :: toks)
    else if c = ')' then do
      let toks ← tokenize fuel rest
      .ok (.rparen :: toks)
    else if c = ',' then do
      let toks ← tokenize fuel rest
      .ok (.comma :: toks)
    else .error "SyntaxError: invalid character"

/-! ## Abstract syntax and the recursive-descent parser (the expression
grammar of CPython `eval` restricted to what survives sanitization:
arithmetic, parentheses and calls; conditional and boolean keyword forms,
tuple displays and attribute access are outside the embedding) -/

inductive BinOp where
  | addB | subB | mulB | divB | fdivB | powB
deriving DecidableEq

inductive PExpr where
  | num (q : PyRat)
  | name (s : String)
  | unary (negate : Bool) (a : PExpr)
  | bin (op : BinOp) (a b : PExpr)
  | call (f : PExpr) (args : List PExpr)

mutual

/-- `a + b`, `a - b`: lowest precedence, left associative. -/
def parseAddSub : Nat → List Tok → Except String (PExpr × List Tok)
  | 0, _ => .error "model: parser fuel exhausted"
  | fuel + 1, ts => do
    let (a, r) ← parseMulDiv fuel ts
    parseAddSubRest fuel a r

def parseAddSubRest : Nat → PExpr → List Tok → Except String (PExpr × List Tok)
  | 0, _, _ => .error "model: parser fuel exhausted"
  | fuel + 1, a, .plus :: ts => do
    let (b, r) ← parseMulDiv fuel ts
    parseAddSubRest fuel (.bin .addB a b) r
  | fuel + 1, a, .minus :: ts => do
    let (b, r) ← parseMulDiv fuel ts
    parseAddSubRest fuel (.bin .subB a b) r
  | _ + 1, a, ts => .ok (a, ts)

/-- `a * b`, `a / b`, `a // b`: left associative. -/
def parseMulDiv : Nat → List Tok → Except String (PExpr × List Tok)
  | 0, _ => .error "model: parser fuel exhausted"
  | fuel + 1, ts => do
    let (a, r) ← parseUnary fuel ts
    parseMulDivRest fuel a r

def parseMulDivRest : Nat → PExpr → List Tok → Except String (PExpr × List Tok)
  | 0, _, _ => .error "model: parser fuel exhausted"
  | fuel + 1, a, .star :: ts => do
    let (b, r) ← parseUnary fuel ts
    parseMulDivRest fuel (.bin .mulB a b) r
  | fuel + 1, a, .slash :: ts => do
    let (b, r) ← parseUnary fuel ts
    parseMulDivRest fuel (.bin .divB a b) r
  | fuel + 1, a, .dslash :: ts => do
    let (b, r) ← parseUnary fuel ts
    parseMulDivRest fuel (.bin .fdivB a b) r
  | _ + 1, a, ts => .ok (a, ts)

/-- Unary `-`/`+`, binding tighter than `*` but looser than `**`. -/
def parseUnary : Nat → List Tok → Except String (PExpr × List Tok)
  | 0, _ => .error "model: parser fuel exhausted"
  | fuel + 1, .minus :: ts => do
    let (a, r) ← parseUnary fuel ts
    .ok (.unary true a, r)
  | fuel + 1, .plus :: ts => do
    let (a, r) ← parseUnary fuel ts
    .ok (.unary false a, r)
  | fuel + 1, ts => parsePower fuel ts

/-- `a ** b`: right associative, with a unary expression on the right. -/
def parsePower : Nat → List Tok → Except String (PExpr × List Tok)
  | 0, _ => .error "model: parser fuel exhausted"
  | fuel + 1, ts => do
    let (a, r) ← parsePostfix fuel ts
    match r with
    | .dstar :: ts2 => do
      let (b, r2) ← parseUnary fuel ts2
      .ok (.bin .powB a b, r2)
    | _ => .ok (a, r)

/-- A primary followed by call trailers `(...)`. -/
def parsePostfix : Nat → List Tok → Except String (PExpr × List Tok)
  | 0, _ => .error "model: parser fuel exhausted"
  | fuel + 1, ts => do
    let (a, r) ← parsePrimary fuel ts
    parseTrailers fuel a r

def parseTrailers : Nat → PExpr → List Tok → Except String (PExpr × List Tok)
  | 0, _, _ => .error "model: parser fuel exhausted"
  | fuel + 1, a, .lparen :: ts =>
    (match ts with
     | .rparen :: r2 => parseTrailers fuel (.call a []) r2
     | _ => do
       let (args, r2) ← parseArgs fuel ts
       parseTrailers fuel (.call a args) r2)
  | _ + 1, a, ts => .ok (a, ts)

/-- Call arguments up to and including the closing parenthesis. -/
def parseArgs : Nat → List Tok → Except String (List PExpr × List Tok)
  | 0, _ => .error "model: parser fuel exhausted"
  | fuel + 1, ts => do
    let (e, r) ← parseAddSub fuel ts
    match r with
    | .comma :: r2 => do
      let (es, r3) ← parseArgs fuel r2
      .ok (e :: es, r3)
    | .rparen :: r2 => .ok ([e], r2)
    | _ => .error "SyntaxError: invalid syntax"

def parsePrimary : Nat → List Tok → Except String (PExpr × List Tok)
  | 0, _ => .error "model: parser fuel exhausted"
  | _ + 1, .num q :: ts => .ok (.num q, ts)
  | _ + 1, .ident s :: ts => .ok (.name s, ts)
  | fuel + 1, .lparen :: ts => do
    let (e, r) ← parseAddSub fuel ts
    (match r with
     | .rparen :: r2 => .ok (e, r2)
     | .comma :: _ => .error "model: tuple displays are outside this embedding"
     | _ => .error "SyntaxError: invalid syntax")
  | _ + 1, _ => .error "SyntaxError: invalid syntax"

end

/-- Parse a complete expression: all tokens must be consumed. -/
def parseFull (ts : List Tok) : Except String PExpr :=
  match parseAddSub (ts.length * 8 + 64) ts with
  | .error m => .error m
  | .ok (e, []) => .ok e
  | .ok (_, _ :: _) => .error "SyntaxError: invalid syntax"

/-! ## Runtime values and the safe namespace -/

/-- A value reachable during evaluation: an exact number, a reference to one
of the whitelisted functions, or the non-finite float constants `inf` and
`nan` (whose arithmetic is outside this embedding). -/
inductive Val where
  | num (q : PyRat)
  | fnref (fname : String)
  | infV
  | nanV
deriving DecidableEq

def modelUndef (fname : String) : Except String PyRat :=
  .error ("model: the value of " ++ fname ++ " at this argument is not an exact rational and is outside this embedding")

def arityError (fname : String) : Except String PyRat :=
  .error ("TypeError: invalid arguments to " ++ fname)

def domainError : Except String PyRat := .error "ValueError: math domain error"

def natSqrtAux : Nat → Nat → Nat → Nat
  | 0, _, i => i
  | fuel + 1, n, i => if n < (i + 1) * (i + 1) then i else natSqrtAux fuel n (i + 1)

def natSqrtModel (n : Nat) : Nat := natSqrtAux n n 0

/-- The exact rational square root when one exists. -/
def sqrtExact (q : PyRat) : Option PyRat :=
  let ns := natSqrtModel q.num.natAbs
  let ds := natSqrtModel q.den
  if ns * ns == q.num.natAbs && ds * ds == q.den then some ⟨(ns : Int), ds⟩ else none

/-- `a ** b` and `pow(a, b)`: exact for integer exponents; a fractional
power is irrational in general and outside the embedding. -/
def powSem (a b : PyRat) : Except String PyRat :=
  if b.den == 1 then
    if a.isZero && b.num < 0 then
      .error "ZeroDivisionError: zero cannot be raised to a negative power"
    else .ok (PyRat.powInt a b.num)
  else modelUndef "a fractional power"

/-- The fixed Function Table `_safe_functions` (calculator.py lines 53-83):
the same 29 keys, each mapped to its operation on exact rationals.  A
transcendental function is exact only at the special points listed; at any
other argument its float value has no exact rational image and the model
reports that explicitly. -/
def _safe_functions : List (String × (List PyRat → Except String PyRat)) :=
  [ ("abs", fun args => match args with
      | [a] => .ok (PyRat.absQ a)
      | _ => arityError "abs"),
    ("round", fun args => match args with
      | [a] => .ok (PyRat.ofInt (PyRat.roundHalfEven a))
      | [_, _] => modelUndef "round with ndigits"
      | _ => arityError "round"),
    ("min", fun args => match args with
      | [] => arityError "min"
      | [_] => .error "TypeError: a number is not iterable"
      | a :: rest => .ok (rest.foldl PyRat.minQ a)),
    ("max", fun args => match args with
      | [] => arityError "max"
      | [_] => .error "TypeError: a number is not iterable"
      | a :: rest => .ok (rest.foldl PyRat.maxQ a)),
    ("sum", fun _ => .error "TypeError: a number is not iterable"),
    ("len", fun _ => .error "TypeError: a number has no length"),
    ("sin", fun args => match args with
      | [a] => if a.isZero then .ok PyRat.zero else modelUndef "sin"
      | _ => arityError "sin"),
    ("cos", fun args => match args with
      | [a] => if a.isZero then .ok PyRat.one else modelUndef "cos"
      | _ => arityError "cos"),
    ("tan", fun args => match args with
      | [a] => if a.isZero then .ok PyRat.zero else modelUndef "tan"
      | _ => arityError "tan"),
    ("asin", fun args => match args with
      | [a] => if PyRat.ltQ PyRat.one (PyRat.absQ a) then domainError
               else if a.isZero then .ok PyRat.zero else modelUndef "asin"
      | _ => arityError "asin"),
    ("acos", fun args => match args with
      | [a] => if PyRat.ltQ PyRat.one (PyRat.absQ a) then domainError
               else if a == PyRat.one then .ok PyRat.zero else modelUndef "acos"
      | _ => arityError "acos"),
    ("atan", fun args => match args with
      | [a] => if a.isZero then .ok PyRat.zero else modelUndef "atan"
      | _ => arityError "atan"),
    ("atan2", fun args => match args with
      | [a, b] => if a.isZero && PyRat.leQ PyRat.zero b then .ok PyRat.zero
                  else modelUndef "atan2"
      | _ => arityError "atan2"),
    ("sinh", fun args => match args with
      | [a] => if a.isZero then .ok PyRat.zero else modelUndef "sinh"
      | _ => arityError "sinh"),
    ("cosh", fun args => match args with
      | [a] => if a.isZero then .ok PyRat.one else modelUndef "cosh"
      | _ => arityError "cosh"),
    ("tanh", fun args => match args with
      | [a] => if a.isZero then .ok PyRat.zero else modelUndef "tanh"
      | _ => arityError "tanh"),
    ("exp", fun args => match args with
      | [a] => if a.isZero then .ok PyRat.one else modelUndef "exp"
      | _ => arityError "exp"),
    ("log", fun args => match args with
      | [a] => if PyRat.leQ a PyRat.zero then domainError
               else if a == PyRat.one then .ok PyRat.zero else modelUndef "log"
      | [_, _] => modelUndef "log with a base"
      | _ => arityError "log"),
    ("log10", fun args => match args with
      | [a] => if PyRat.leQ a PyRat.zero then domainError
               else if a == PyRat.one then .ok PyRat.zero else modelUndef "log10"
      | _ => arityError "log10"),
    ("log2", fun args => match args with
      | [a] => if PyRat.leQ a PyRat.zero then domainError
               else if a == PyRat.one then .ok PyRat.zero else modelUndef "log2"
      | _ => arityError "log2"),
    ("sqrt", fun args => match args with
      | [a] => if a.num < 0 then domainError
               else match sqrtExact a with
                    | some r => .ok r
                    | none => modelUndef "sqrt"
      | _ => arityError "sqrt"),
    ("pow", fun args => match args with
      | [a, b] => powSem a b
      | [_, _, _] => modelUndef "three-argument pow"
      | _ => arityError "pow"),
    ("degrees", fun args => match args with
      | [a] => if a.isZero then .ok PyRat.zero else modelUndef "degrees"
      | _ => arityError "degrees"),
    ("radians", fun args => match args with
      | [a] => if a.isZero then .ok PyRat.zero else modelUndef "radians"
      | _ => arityError "radians"),
    ("ceil", fun args => match args with
      | [a] => .ok (PyRat.ofInt (PyRat.ceilQ a))
      | _ => arityError "ceil"),
    ("floor", fun args => match args with
      | [a] => .ok (PyRat.ofInt (PyRat.floorQ a))
      | _ => arityError "floor"),
    ("trunc", fun args => match args with
      | [a] => .ok (PyRat.ofInt (PyRat.truncQ a))
      | _ => arityError "trunc"),
    ("factorial", fun args => match args with
      | [a] => if a.den == 1 && 0 ≤ a.num then .ok (PyRat.ofNat (Nat.factorial a.num.toNat))
               else .error "ValueError: factorial requires a nonnegative integer"
      | _ => arityError "factorial"),
    ("gcd", fun args =>
      if args.all (fun q => q.den == 1) then
        .ok (PyRat.ofNat (args.foldl (fun g q => Nat.gcd g q.num.natAbs) 0))
      else .error "TypeError: gcd requires integers") ]

/-- The keys of the Function Table, in source order; `func_name not in
_safe_functions` is membership in this list. -/
def safeFunctionNames : List String := _safe_functions.map Prod.fst

/-- `math.pi` as the exact rational value of its IEEE double. -/
def piQ : PyRat := ⟨884279719003555, 281474976710656⟩

/-- `math.e` as the exact rational value of its IEEE double. -/
def eQ : PyRat := ⟨6121026514868073, 2251799813685248⟩

/-- `math.tau` as the exact rational value of its IEEE double. -/
def tauQ : PyRat := ⟨884279719003555, 140737488355328⟩

/-- The constant table `_safe_constants` (calculator.py lines 85-91). -/
def _safe_constants : List (String × Val) :=
  [("pi", .num piQ), ("e", .num eQ), ("tau", .num tauQ), ("inf", .infV), ("nan", .nanV)]

/-- Name resolution in the namespace built for the general path
(calculator.py lines 107-112 and 199-202): `safe_env` is the Function Table
updated with `variables`, where `variables` is the constant table updated
with the caller mapping.  Hence the lookup order is caller variables, then
constants, then functions — a caller variable shadows a same-named constant
AND a same-named function. -/
def lookupEnv (vars : List (String × PyRat)) (n : String) : Option Val :=
  match vars.lookup n with
  | some q => some (.num q)
  | none =>
    match _safe_constants.lookup n with
    | some v => some v
    | none => if safeFunctionNames.contains n then some (.fnref n) else none

/-! ## The expression evaluator -/

def applyBinNum (op : BinOp) (a b : PyRat) : Except String Val :=
  match op with
  | .addB => .ok (.num (PyRat.addQ a b))
  | .subB => .ok (.num (PyRat.subQ a b))
  | .mulB => .ok (.num (PyRat.mulQ a b))
  | .divB =>
    if b.isZero then .error "ZeroDivisionError: division by zero"
    else .ok (.num (PyRat.divQ a b))
  | .fdivB =>
    if b.isZero then .error "ZeroDivisionError: integer division or modulo by zero"
    else .ok (.num (PyRat.ofInt (PyRat.floorQ (PyRat.divQ a b))))
  | .powB => (powSem a b).map Val.num

def applyBin (op : BinOp) (va vb : Val) : Except String Val :=
  match va, vb with
  | .num a, .num b => applyBinNum op a b
  | .fnref _, _ => .error "TypeError: unsupported operand types"
  | _, .fnref _ => .error "TypeError: unsupported operand types"
  | _, _ => .error "model: arithmetic on non-finite operands is outside this embedding"

/-- Evaluate an abstract syntax tree against a namespace, the model of what
CPython `eval` does once the expression is compiled.  Name lookup failures
are `NameError`, calling a non-function is a `TypeError`, and the numeric
operators have their CPython semantics on exact values. -/
def evalAst (env : String → Option Val) : Nat → PExpr → Except String Val
  | 0, _ => .error "model: evaluator fuel exhausted"
  | _ + 1, .num q => .ok (.num q)
  | _ + 1, .name n =>
    match env n with
    | some v => .ok v
    | none => .error ("NameError: name " ++ n ++ " is not defined")
  | fuel + 1, .unary negate a => do
    let v ← evalAst env fuel a
    match v with
    | .num q => .ok (.num (if negate then PyRat.negQ q else q))
    | .fnref _ => .error "TypeError: bad operand type for unary arithmetic"
    | _ => .error "model: arithmetic on non-finite operands is outside this embedding"
  | fuel + 1, .bin op a b => do
    let va ← evalAst env fuel a
    let vb ← evalAst env fuel b
    applyBin op va vb
  | fuel + 1, .call f args => do
    let vf ← evalAst env fuel f
    let vargs ← args.mapM (fun x => evalAst env fuel x)
    match vf with
    | .fnref fname => do
      let qs ← vargs.mapM (fun v =>
        match v with
        | Val.num q => Except.ok q
        | Val.fnref _ => Except.error "TypeError: a function is not a valid argument"
        | _ => Except.error "model: non-finite arguments are outside this embedding")
      match _safe_functions.lookup fname with
      | some impl => (impl qs).map Val.num
      | none => .error "model: a function reference always names a table entry"
    | .num _ => .error "TypeError: number object is not callable"
    | _ => .error "TypeError: object is not callable"

/-- Tokenize, parse and evaluate one expression string against a
namespace: the model of `eval(expression, safe_env, {})`. -/
def runEval (env : String → Option Val) (cs : List Char) : Except String Val := do
  let toks ← tokenize (cs.length + 1) cs
  let ast ← parseFull toks
  evalAst env (cs.length * 8 + 64) ast

/-! ## `_evaluate_expression` (calculator.py lines 169-209) -/

/-- Diagnostic rendering of a value inside a trace step, standing in for the
f-string interpolation of the result.  CPython prints the shortest float
repr; this model prints the exact value.  Trace strings carry no
correctness contract (spec section 3, "Step Trace"). -/
def pyShow (v : Val) : String :=
  match v with
  | .num q => if q.den == 1 then intRender q.num
              else intRender q.num ++ "/" ++ natRender q.den
  | .infV => "inf"
  | .nanV => "nan"
  | .fnref n => "<built-in function " ++ n ++ ">"

/-- Scan for the pattern `([a-zA-Z_][a-zA-Z0-9_]*)\s*\(` with CPython
`re.findall` semantics: leftmost non-overlapping matches, greedy identifier
run, optional whitespace, then a literal `(`; the capture is the
identifier. -/
def findCallsAux : Nat → List Char → List String
  | 0, _ => []
  | _ + 1, [] => []
  | fuel + 1, c :: rest =>
    if pyIsIdentStart c then
      match (rest.dropWhile pyIsWordChar).dropWhile pyIsSpace with
      | '(' :: tailRest =>
        String.mk (c :: rest.takeWhile pyIsWordChar) :: findCallsAux fuel tailRest
      | _ => findCallsAux fuel rest
    else findCallsAux fuel rest

/-- `re.findall(r'([a-zA-Z_][a-zA-Z0-9_]*)\s*\(', expression)`
(calculator.py lines 191-192). -/
def findCalls (l : List Char) : List String := findCallsAux (l.length + 1) l

/-- The validation loop of calculator.py lines 195-197: raise on the first
extracted name that is not a key of the Function Table.  CPython wraps the
name in quote marks; the model message keeps the name itself. -/
def checkFunctions : List String → Except String Unit
  | [] => .ok ()
  | f :: rest =>
    if safeFunctionNames.contains f then checkFunctions rest
    else .error ("Function " ++ f ++ " is not allowed")

/-- `_evaluate_expression` (calculator.py lines 169-209).  The fast path
evaluates against the empty namespace; the general path validates extracted
call names against the Function Table and then evaluates against the
`safe_env` namespace. -/
def _evaluate_expression (expr : String) (vars : List (String × PyRat)) :
    Except String (Val × List String) :=
  let cs := expr.data
  if isSimpleArith cs then
    match runEval (fun _ => none) cs with
    | .error m => .error m
    | .ok v => .ok (v, ["Evaluating arithmetic expression: " ++ expr, "Result: " ++ pyShow v])
  else
    match checkFunctions (findCalls cs) with
    | .error m => .error m
    | .ok _ =>
      match runEval (lookupEnv vars) cs with
      | .error m => .error m
      | .ok v => .ok (v, ["Evaluating expression: " ++ expr, "Result: " ++ pyShow v])

/-! ## `calculator_tool` (calculator.py lines 93-146) -/

/-- The `result` field of `CalculatorOutput`: `Union[float, int, str]`, with
the non-finite floats kept apart. -/
inductive OutVal where
  | num (q : PyRat)
  | strv (s : String)
  | infV
  | nanV
deriving DecidableEq

structure CalculatorOutput where
  result : OutVal
  formatted_result : String
  steps : Option (List String)
  error : Option String
deriving DecidableEq

/-- The except-branch output (calculator.py lines 141-145). -/
def errorOutput (msg : String) : CalculatorOutput :=
  { result := .strv "Error", formatted_result := "Error", steps := none, error := some msg }

def formatSpecError : String := "ValueError: Format specifier missing precision"

/-- Result formatting (calculator.py lines 120-127) plus the construction of
`CalculatorOutput`: a whole number renders as `str(int(result))` without
touching the precision; otherwise `f"{result:.{precision}f}"`, which raises
for a negative or missing precision; a function object as result fails the
`CalculatorOutput` field validation. -/
def resultAndFormat (v : Val) (precision : Option Int) : Except String (OutVal × String) :=
  match v with
  | .num q =>
    if q.den == 1 then .ok (.num q, intRender q.num)
    else
      match precision with
      | some p => if p < 0 then .error formatSpecError else .ok (.num q, formatFixed q p.toNat)
      | none => .error formatSpecError
  | .infV =>
    match precision with
    | some p => if p < 0 then .error formatSpecError else .ok (.infV, "inf")
    | none => .error formatSpecError
  | .nanV =>
    match precision with
    | some p => if p < 0 then .error formatSpecError else .ok (.nanV, "nan")
    | none => .error formatSpecError
  | .fnref _ => .error "ValidationError: result must be a float, int or str"

/-- `calculator_tool` (calculator.py lines 93-146) after input parsing: the
try-block body, with every failure converted to the structured error
output. -/
def calculator_tool (expression : String) (precision : Option Int)
    (vars : List (String × PyRat)) : CalculatorOutput :=
  match _evaluate_expression (_clean_expression expression) vars with
  | .error m => errorOutput m
  | .ok (v, steps) =>
    match resultAndFormat v precision with
    | .error m => errorOutput m
    | .ok (rv, fs) =>
      { result := rv, formatted_result := fs, steps := some steps, error := none }

/-! ## Input-model parsing (`CalculatorInput(**input_data)`, calculator.py
line 104, which runs before the try block) -/

/-- An untyped input value as delivered by the request payload. -/
inductive RawVal where
  | str (s : String)
  | int (n : Int)
  | float (q : PyRat)
  | dict (l : List (String × RawVal))
  | null

def strToIntDigits (l : List Char) : Option Nat :=
  if !l.isEmpty && l.all pyIsDigit then
    some (l.foldl (fun a c => a * 10 + (c.toNat - 48)) 0)
  else none

/-- Lax integer coercion of a string, the model of the pydantic `int`
validation of a numeric string. -/
def strToInt (s : String) : Option Int :=
  match s.data with
  | '-' :: ds => (strToIntDigits ds).map (fun n => -(n : Int))
  | ds => (strToIntDigits ds).map (fun n => (n : Int))

structure CalculatorInput where
  expression : String
  precision : Option Int
  vars : List (String × PyRat)

def coerceVariables (l : List (String × RawVal)) : Except String (List (String × PyRat)) :=
  l.mapM (fun p =>
    match p.2 with
    | RawVal.int n => Except.ok (p.1, PyRat.ofInt n)
    | RawVal.float q => Except.ok (p.1, q)
    | _ => Except.error "variables: Input should be a valid number")

/-- The pydantic validation of `CalculatorInput`: `expression` is a required
string, `precision` an optional integer defaulting to 6, `variables` an
optional mapping of names to numbers.  A failure here raises to the caller
of `calculator_tool`, because line 104 runs before the try block. -/
def parseCalculatorInput (d : List (String × RawVal)) : Except String CalculatorInput := do
  let eV ←
    match d.lookup "expression" with
    | none => Except.error "expression: Field required"
    | some (RawVal.str s) => Except.ok s
    | some _ => Except.error "expression: Input should be a valid string"
  let pV ←
    match d.lookup "precision" with
    | none => Except.ok (some (6 : Int))
    | some RawVal.null => Except.ok none
    | some (RawVal.int n) => Except.ok (some n)
    | some (RawVal.float q) =>
      if q.den == 1 then Except.ok (some q.num)
      else Except.error "precision: Input should be a valid integer"
    | some (RawVal.str s) =>
      match strToInt s with
      | some n => Except.ok (some n)
      | none => Except.error "precision: Input should be a valid integer"
    | some _ => Except.error "precision: Input should be a valid integer"
  let vV ←
    match d.lookup "variables" with
    | none => Except.ok []
    | some RawVal.null => Except.ok []
    | some (RawVal.dict l) => coerceVariables l
    | some _ => Except.error "variables: Input should be a valid dictionary"
  Except.ok ⟨eV, pV, vV⟩

/-- The full tool entry point: parse the input model (outside any handler),
then run the guarded body.  An input-validation failure is a raised
exception, not a `CalculatorOutput`. -/
def calculatorEntry (d : List (String × RawVal)) : Except String CalculatorOutput :=
  match parseCalculatorInput d with
  | .error m => .error m
  | .ok i => .ok (calculator_tool i.expression i.precision i.vars)

/-! ## Supporting lemmas -/

theorem strApp_data (a b : String) : (a ++ b).data = a.data ++ b.data := rfl

theorem mem_charConcatMap {f : Char → List Char} :
    ∀ {l : List Char} {c : Char}, c ∈ charConcatMap f l → ∃ a ∈ l, c ∈ f a := by
  intro l
  induction l with
  | nil => intro c h; simp [charConcatMap] at h
  | cons a rest ih =>
    intro c h
    simp only [charConcatMap] at h
    rcases List.mem_append.mp h with h1 | h2
    · exact ⟨a, List.mem_cons_self a rest, h1⟩
    · obtain ⟨b, hb, hcb⟩ := ih h2
      exact ⟨b, List.mem_cons_of_mem a hb, hcb⟩

theorem charConcatMap_eq_self {f : Char → List Char} :
    ∀ {l : List Char}, (∀ c ∈ l, f c = [c]) → charConcatMap f l = l := by
  intro l
  induction l with
  | nil => intro _; rfl
  | cons a rest ih =>
    intro h
    simp only [charConcatMap]
    rw [h a (List.mem_cons_self a rest), ih (fun c hc => h c (List.mem_cons_of_mem a hc))]
    rfl

/-- Every character of a sanitized expression is in the allowed class and is
neither `%` (all rewritten) nor `^` (stripped, and not reintroduced). -/
theorem cleanL_chars : ∀ {l : List Char} {c : Char},
    c ∈ cleanExpressionL l → allowedChar c = true ∧ c ≠ '%' ∧ c ≠ '^' := by
  intro l c h
  simp only [cleanExpressionL] at h
  obtain ⟨b, hb, hcb⟩ := mem_charConcatMap h
  obtain ⟨a, ha, hba⟩ := mem_charConcatMap hb
  have haAllowed : allowedChar a = true := (List.mem_filter.mp ha).2
  by_cases hap : a = '%'
  · subst hap
    simp only [percentSub, if_pos rfl] at hba
    have hbprop : allowedChar b = true ∧ b ≠ '%' ∧ b ≠ '^' := by
      have hall : ∀ x ∈ ['/', '1', '0', '0', '*'], allowedChar x = true ∧ x ≠ '%' ∧ x ≠ '^' := by
        decide
      exact hall b hba
    have hcb' : c = b := by
      simp only [caretSub, if_neg hbprop.2.2] at hcb
      simpa using hcb
    subst hcb'
    exact hbprop
  · have hba' : b = a := by
      simp only [percentSub, if_neg hap] at hba
      simpa using hba
    subst hba'
    have hne : b ≠ '^' := by
      intro hEq
      subst hEq
      exact absurd haAllowed (by decide)
    have hcb' : c = b := by
      simp only [caretSub, if_neg hne] at hcb
      simpa using hcb
    subst hcb'
    exact ⟨haAllowed, hap, hne⟩

theorem mem_of_mem_dropWhile {p : Char → Bool} :
    ∀ {l : List Char} {x : Char}, x ∈ l.dropWhile p → x ∈ l := by
  intro l
  induction l with
  | nil => intro x h; simp [List.dropWhile] at h
  | cons c rest ih =>
    intro x h
    by_cases hp : p c = true
    · simp only [List.dropWhile, hp] at h
      exact List.mem_cons_of_mem c (ih h)
    · have hp' : p c = false := by
        cases hx : p c
        · rfl
        · exact absurd hx hp
      simp only [List.dropWhile, hp'] at h
      exact h

/-- Any extracted call name witnesses an identifier-start character in the
scanned string. -/
theorem findCallsAux_identStart :
    ∀ (fuel : Nat) (l : List Char) (f : String),
      f ∈ findCallsAux fuel l → ∃ c ∈ l, pyIsIdentStart c = true := by
  intro fuel
  induction fuel with
  | zero => intro l f h; simp [findCallsAux] at h
  | succ n ih =>
    intro l f h
    cases l with
    | nil => simp [findCallsAux] at h
    | cons c rest =>
      by_cases hc : pyIsIdentStart c = true
      · exact ⟨c, List.mem_cons_self c rest, hc⟩
      · have hc' : pyIsIdentStart c = false := by
          cases hx : pyIsIdentStart c
          · rfl
          · exact absurd hx hc
        simp only [findCallsAux, hc', Bool.false_eq_true, if_false] at h
        obtain ⟨c2, hc2, hid⟩ := ih rest f h
        exact ⟨c2, List.mem_cons_of_mem c hc2, hid⟩

/-- An identifier-start character is outside the fast-path class. -/
theorem identStart_not_simple {c : Char} (h : pyIsIdentStart c = true) :
    isSimpleArithChar c = false := by
  simp only [pyIsIdentStart, pyIsAlpha, Bool.or_eq_true, Bool.and_eq_true,
    decide_eq_true_eq] at h
  rcases h with h | h
  · rw [Bool.eq_false_iff]
    intro hs
    simp only [isSimpleArithChar, pyIsDigit, pyIsSpace, Bool.or_eq_true, Bool.and_eq_true,
      decide_eq_true_eq] at hs
    omega
  · subst h
    decide

/-- The validation loop raises on the first unknown name; any unknown name in
the list forces the error outcome. -/
theorem checkFunctions_first_unknown :
    ∀ {names : List String}, (∃ f ∈ names, safeFunctionNames.contains f = false) →
      ∃ g ∈ names, safeFunctionNames.contains g = false ∧
        checkFunctions names = .error ("Function " ++ g ++ " is not allowed") := by
  intro names h
  induction names with
  | nil =>
    obtain ⟨f, hf, _⟩ := h
    exact absurd hf (List.not_mem_nil f)
  | cons a rest ih =>
    by_cases ha : safeFunctionNames.contains a = true
    · have hrest : ∃ f ∈ rest, safeFunctionNames.contains f = false := by
        obtain ⟨f, hf, hfc⟩ := h
        rcases List.mem_cons.mp hf with rfl | hf2
        · rw [ha] at hfc; cases hfc
        · exact ⟨f, hf2, hfc⟩
      obtain ⟨g, hg, hgc, hck⟩ := ih hrest
      refine ⟨g, List.mem_cons_of_mem a hg, hgc, ?_⟩
      simp only [checkFunctions, ha, if_true]
      exact hck
    · have ha' : safeFunctionNames.contains a = false := by
        cases hx : safeFunctionNames.contains a
        · rfl
        · exact absurd hx ha
      refine ⟨a, List.mem_cons_self a rest, ha', ?_⟩
      simp only [checkFunctions, ha', Bool.false_eq_true, if_false]

/-- If sanitization leaves an extractable call name, the fast-path test
fails. -/
theorem isSimpleArith_false_of_findCalls {l : List Char} {f : String}
    (h : f ∈ findCalls l) : isSimpleArith l = false := by
  obtain ⟨c, hc, hid⟩ := findCallsAux_identStart (l.length + 1) l f h
  cases hsa : isSimpleArith l
  · rfl
  · exfalso
    have hall : l.all isSimpleArithChar = true := by
      simp only [isSimpleArith, Bool.and_eq_true] at hsa
      exact hsa.2
    have := (List.all_eq_true.mp hall) c hc
    rw [identStart_not_simple hid] at this
    cases this

theorem digitChar_ne_dot (d : Nat) : digitChar d ≠ '.' := by
  unfold digitChar
  split <;> decide

theorem natDigitsAux_ne_dot :
    ∀ (fuel n : Nat), ∀ c ∈ natDigitsAux fuel n, c ≠ '.' := by
  intro fuel
  induction fuel with
  | zero => intro n c h; simp [natDigitsAux] at h
  | succ k ih =>
    intro n c h
    simp only [natDigitsAux] at h
    by_cases hn : n < 10
    · rw [if_pos hn] at h
      simp only [List.mem_singleton] at h
      subst h
      exact digitChar_ne_dot n
    · rw [if_neg hn] at h
      rcases List.mem_append.mp h with h | h
      · exact ih _ c h
      · simp only [List.mem_singleton] at h
        subst h
        exact digitChar_ne_dot _

theorem fracDigits_ne_dot : ∀ (p n : Nat), ∀ c ∈ fracDigits p n, c ≠ '.' := by
  intro p
  induction p with
  | zero => intro n c h; simp [fracDigits] at h
  | succ k ih =>
    intro n c h
    simp only [fracDigits] at h
    rcases List.mem_append.mp h with h | h
    · exact ih _ c h
    · simp only [List.mem_singleton] at h
      subst h
      exact digitChar_ne_dot _

theorem fracDigits_length : ∀ (p n : Nat), (fracDigits p n).length = p := by
  intro p
  induction p with
  | zero => intro n; rfl
  | succ k ih =>
    intro n
    simp [fracDigits, List.length_append, ih]

theorem natRender_no_dot (n : Nat) : '.' ∉ (natRender n).data := by
  intro h
  exact natDigitsAux_ne_dot (n + 1) n '.' h rfl

theorem intRender_no_dot (i : Int) : '.' ∉ (intRender i).data := by
  unfold intRender
  split
  · intro h
    rw [strApp_data] at h
    rcases List.mem_append.mp h with h | h
    · simp at h
    · exact natRender_no_dot _ h
  · exact natRender_no_dot _

theorem countAfterPoint_of_no_dot {s : String} (h : '.' ∉ s.data) : countAfterPoint s = 0 := by
  unfold countAfterPoint
  rw [if_neg h]

theorem takeWhile_append_all {pfn : Char → Bool} :
    ∀ (l1 : List Char) (x : Char) (l2 : List Char),
      (∀ c ∈ l1, pfn c = true) → pfn x = false →
      (l1 ++ x :: l2).takeWhile pfn = l1 := by
  intro l1
  induction l1 with
  | nil =>
    intro x l2 _ hx
    simp only [List.nil_append, List.takeWhile]
    rw [hx]
  | cons a rest ih =>
    intro x l2 h hx
    have ha := h a (List.mem_cons_self a rest)
    simp only [List.cons_append, List.takeWhile]
    rw [ha]
    show a :: List.takeWhile pfn (rest ++ x :: l2) = a :: rest
    rw [ih x l2 (fun c hc => h c (List.mem_cons_of_mem a hc)) hx]

/-- The fixed-point format always prints exactly `p` digits after the point
(and no point at all for `p = 0`). -/
theorem countAfterPoint_formatFixed (q : PyRat) (p : Nat) :
    countAfterPoint (formatFixed q p) = p := by
  unfold formatFixed
  by_cases hp : p = 0
  · subst hp
    rw [if_pos rfl]
    apply countAfterPoint_of_no_dot
    intro h
    rw [strApp_data] at h
    rcases List.mem_append.mp h with h | h
    · revert h
      split <;> decide
    · exact natRender_no_dot _ h
  · rw [if_neg hp]
    set sign := if q.num < 0 then "-" else "" with hsign
    set n := (PyRat.roundHalfEven (PyRat.mulQ (PyRat.absQ q) (PyRat.ofNat (Nat.pow 10 p)))).toNat with hn
    have hdata : (sign ++ natRender (n / Nat.pow 10 p) ++ "." ++
        (⟨fracDigits p (n % Nat.pow 10 p)⟩ : String)).data =
        (sign.data ++ (natRender (n / Nat.pow 10 p)).data) ++
          '.' :: fracDigits p (n % Nat.pow 10 p) := by
      rw [strApp_data, strApp_data, strApp_data]
      simp [List.append_assoc]
    unfold countAfterPoint
    rw [hdata]
    rw [if_pos (by
      apply List.mem_append.mpr
      right
      exact List.mem_cons_self '.' _)]
    rw [List.reverse_append]
    have hrevcons : ('.' :: fracDigits p (n % Nat.pow 10 p)).reverse =
        (fracDigits p (n % Nat.pow 10 p)).reverse ++ ['.'] := by
      simp [List.reverse_cons]
    rw [hrevcons, List.append_assoc, List.singleton_append]
    rw [takeWhile_append_all ((fracDigits p (n % Nat.pow 10 p)).reverse) '.'
      ((sign.data ++ (natRender (n / Nat.pow 10 p)).data).reverse)
      (by
        intro c hc
        have hcm : c ∈ fracDigits p (n % Nat.pow 10 p) := List.mem_reverse.mp hc
        have := fracDigits_ne_dot p (n % Nat.pow 10 p) c hcm
        simp [bne_iff_ne, this])
      (by decide)]
    rw [List.length_reverse, fracDigits_length]

/-! ## Claim theorems -/

/-- C9: the sanitizer is idempotent: stripping, the `%` rewrite and the `^`
rewrite applied to their own output change nothing. -/
theorem c9_sanitizer_idempotent (s : String) :
    _clean_expression (_clean_expression s) = _clean_expression s := by
  have key : ∀ (l : List Char), cleanExpressionL (cleanExpressionL l) = cleanExpressionL l := by
    intro l
    have h1 : (cleanExpressionL l).filter allowedChar = cleanExpressionL l :=
      List.filter_eq_self.mpr (fun c hc => (cleanL_chars hc).1)
    have h2 : charConcatMap percentSub (cleanExpressionL l) = cleanExpressionL l :=
      charConcatMap_eq_self (fun c hc => by
        have hne := (cleanL_chars hc).2.1
        simp [percentSub, hne])
    have h3 : charConcatMap caretSub (cleanExpressionL l) = cleanExpressionL l :=
      charConcatMap_eq_self (fun c hc => by
        have hne := (cleanL_chars hc).2.2
        simp [caretSub, hne])
    calc cleanExpressionL (cleanExpressionL l)
        = charConcatMap caretSub (charConcatMap percentSub
            ((cleanExpressionL l).filter allowedChar)) := rfl
      _ = cleanExpressionL l := by rw [h1, h2, h3]
  simp only [_clean_expression]
  exact congrArg (fun l => (⟨l⟩ : String)) (key s.data)

/-- C1: the input `1;2.5` contains a statement separator, yet the sanitizer
silently strips the `;`, the remaining text `12.5` is evaluated, and the
call succeeds with no error of any kind — the code does not reject
statement separators (nor, more generally, the characters it strips). -/
theorem c1_statement_separator_stripped_not_rejected :
    _clean_expression "1;2.5" = "12.5" ∧
    (calculator_tool "1;2.5" (some 6) []).error = none ∧
    (calculator_tool "1;2.5" (some 6) []).result = OutVal.num ⟨25, 2⟩ ∧
    (calculator_tool "1;2.5" (some 6) []).formatted_result = "12.500000" :=
  ⟨rfl, rfl, rfl, rfl⟩

/-- C2 counterexample: the `%` rewrite turns `50%*200` into `50/100**200`
(the inserted `*` merges with the following `*` into exponentiation), so the
evaluation result is 50/100^200, not 100. -/
theorem c2_percent_star_counterexample :
    _clean_expression "50%*200" = "50/100**200" ∧
    (calculator_tool "50%*200" (some 6) []).error = none ∧
    (calculator_tool "50%*200" (some 6) []).result ≠ OutVal.num ⟨100, 1⟩ :=
  ⟨rfl, rfl, by decide⟩

/-- C2 amended: the sanitizer does rewrite every `%` to `/100*` (no `%`
survives), and the rewrite gives `evaluate("50%200") = 100`; the spec's
worked example `50%*200` instead becomes `50/100**200`. -/
theorem c2_percent_rewrite_amended :
    (∀ s : String, '%' ∉ (_clean_expression s).data) ∧
    _clean_expression "50%200" = "50/100*200" ∧
    (calculator_tool "50%200" (some 6) []).result = OutVal.num ⟨100, 1⟩ ∧
    (calculator_tool "50%200" (some 6) []).formatted_result = "100" ∧
    (calculator_tool "50%200" (some 6) []).error = none := by
  refine ⟨?_, rfl, rfl, rfl, rfl⟩
  intro s h
  exact (cleanL_chars (l := s.data) h).2.1 rfl

/-- C3: the character filter strips `^` before the `^` to `**` rewrite can
run (the rewrite on line 165 is dead code), so `2^10` becomes `210` and
evaluates to 210 with no error — not 1024. -/
theorem c3_caret_stripped_before_rewrite :
    _clean_expression "2^10" = "210" ∧
    (calculator_tool "2^10" (some 6) []).result = OutVal.num ⟨210, 1⟩ ∧
    (calculator_tool "2^10" (some 6) []).error = none ∧
    (calculator_tool "2^10" (some 6) []).result ≠ OutVal.num ⟨1024, 1⟩ :=
  ⟨rfl, rfl, rfl, by decide⟩

/-- C4: whenever the sanitized expression contains an identifier followed by
`(` that is not a key of the Function Table, the tool returns the
structured error output naming an offending identifier (the first unknown
one), with the `Error` marker as result and no partial value; membership in
the table is the sole criterion. -/
theorem c4_unknown_function_rejected (e : String) (p : Option Int) (v : List (String × PyRat))
    (h : ∃ f ∈ findCalls (_clean_expression e).data, safeFunctionNames.contains f = false) :
    ∃ g ∈ findCalls (_clean_expression e).data,
      safeFunctionNames.contains g = false ∧
      calculator_tool e p v = errorOutput ("Function " ++ g ++ " is not allowed") := by
  obtain ⟨g, hg, hgc, hcheck⟩ := checkFunctions_first_unknown h
  refine ⟨g, hg, hgc, ?_⟩
  obtain ⟨f0, hf0, _⟩ := h
  have hns : isSimpleArith (_clean_expression e).data = false :=
    isSimpleArith_false_of_findCalls hf0
  simp only [calculator_tool, _evaluate_expression, hns, Bool.false_eq_true, if_false, hcheck]

/-- C4 witness: `foo(1)` extracts the unknown name `foo` and the tool
returns the unknown-function error output. -/
theorem c4_unknown_function_rejected_witness :
    (∃ f ∈ findCalls (_clean_expression "foo(1)").data,
        safeFunctionNames.contains f = false) ∧
    (∃ g ∈ findCalls (_clean_expression "foo(1)").data,
        safeFunctionNames.contains g = false ∧
        calculator_tool "foo(1)" (some 6) [] =
          errorOutput ("Function " ++ g ++ " is not allowed")) :=
  ⟨by decide, c4_unknown_function_rejected "foo(1)" (some 6) [] (by decide)⟩

/-- C5: if the sanitized expression passes the fast-path character test and
has a value under pure arithmetic evaluation in the empty namespace, then
for every caller variable mapping the tool returns exactly that value with
no error, and the trace is the single arithmetic-evaluation step pair — no
function or variable resolution takes place. -/
theorem c5_fast_path_pure_arithmetic (e : String) (v : List (String × PyRat)) (q : PyRat)
    (hs : isSimpleArith (_clean_expression e).data = true)
    (hv : runEval (fun _ => none) (_clean_expression e).data = .ok (.num q)) :
    (calculator_tool e (some 6) v).result = OutVal.num q ∧
    (calculator_tool e (some 6) v).error = none ∧
    (calculator_tool e (some 6) v).steps =
      some ["Evaluating arithmetic expression: " ++ _clean_expression e,
            "Result: " ++ pyShow (Val.num q)] := by
  have hev : _evaluate_expression (_clean_expression e) v =
      .ok (.num q, ["Evaluating arithmetic expression: " ++ _clean_expression e,
                    "Result: " ++ pyShow (Val.num q)]) := by
    simp only [_evaluate_expression, hs, if_true, hv]
  by_cases hq : q.den = 1
  · have hq' : (q.den == 1) = true := by simp [hq]
    simp [calculator_tool, hev, resultAndFormat, hq']
  · have hq' : (q.den == 1) = false := by simp [hq]
    simp [calculator_tool, hev, resultAndFormat, hq',
      show ¬((6 : Int) < 0) from by norm_num]

/-- C5 witness: `2 + 3 * 4` evaluates to 14 with no error even with a
nonempty variable mapping supplied. -/
theorem c5_fast_path_pure_arithmetic_witness :
    isSimpleArith (_clean_expression "2 + 3 * 4").data = true ∧
    runEval (fun _ => none) (_clean_expression "2 + 3 * 4").data = .ok (.num ⟨14, 1⟩) ∧
    (calculator_tool "2 + 3 * 4" (some 6) [("x", ⟨3, 1⟩)]).result = OutVal.num ⟨14, 1⟩ ∧
    (calculator_tool "2 + 3 * 4" (some 6) [("x", ⟨3, 1⟩)]).error = none :=
  ⟨by decide, rfl,
    (c5_fast_path_pure_arithmetic "2 + 3 * 4" [("x", ⟨3, 1⟩)] ⟨14, 1⟩ (by decide) rfl).1,
    (c5_fast_path_pure_arithmetic "2 + 3 * 4" [("x", ⟨3, 1⟩)] ⟨14, 1⟩ (by decide) rfl).2.1⟩

/-- C6: the tool body never escapes as an exception: every call produces a
structured output in which either the error field is absent, or the error
carries a message and both `result` and `formatted_result` are the literal
`Error` marker. -/
theorem c6_structured_error_output (e : String) (p : Option Int) (v : List (String × PyRat)) :
    (calculator_tool e p v).error = none ∨
    ((calculator_tool e p v).result = OutVal.strv "Error" ∧
     (calculator_tool e p v).formatted_result = "Error" ∧
     ∃ m, (calculator_tool e p v).error = some m) := by
  unfold calculator_tool
  cases hev : _evaluate_expression (_clean_expression e) v with
  | error m =>
    right
    simp [hev, errorOutput]
  | ok pr =>
    obtain ⟨val, steps⟩ := pr
    cases hrf : resultAndFormat val p with
    | error m =>
      right
      simp [hev, hrf, errorOutput]
    | ok pr2 =>
      obtain ⟨rv, fs⟩ := pr2
      left
      simp [hev, hrf]

/-- C7: when evaluation succeeds with a numeric result, a whole number is
rendered as its integer string with no decimal point for every precision
(including a negative or missing one), a non-integral result is rendered
with exactly `p` digits after the decimal point for every natural `p`, and
a negative precision with a non-integral result is rejected with the
structured error output. -/
theorem c7_result_formatting (e : String) (v : List (String × PyRat)) (q : PyRat)
    (st : List String)
    (h : _evaluate_expression (_clean_expression e) v = .ok (.num q, st)) :
    (q.den = 1 → ∀ p : Option Int,
        (calculator_tool e p v).formatted_result = intRender q.num ∧
        '.' ∉ (calculator_tool e p v).formatted_result.data ∧
        (calculator_tool e p v).error = none) ∧
    (q.den ≠ 1 → ∀ p : Nat,
        (calculator_tool e (some (p : Int)) v).formatted_result = formatFixed q p ∧
        countAfterPoint (calculator_tool e (some (p : Int)) v).formatted_result = p) ∧
    (q.den ≠ 1 → ∀ p : Int, p < 0 →
        calculator_tool e (some p) v = errorOutput formatSpecError) := by
  refine ⟨?_, ?_, ?_⟩
  · intro hq p
    have hq' : (q.den == 1) = true := by simp [hq]
    simp only [calculator_tool, h, resultAndFormat, hq', if_true]
    exact ⟨trivial, intRender_no_dot q.num, trivial⟩
  · intro hq p
    have hq' : (q.den == 1) = false := by simp [hq]
    have hnp : ¬((p : Int) < 0) := by omega
    simp only [calculator_tool, h, resultAndFormat, hq', Bool.false_eq_true, if_false,
      if_neg hnp]
    rw [Int.toNat_natCast]
    exact ⟨rfl, countAfterPoint_formatFixed q p⟩
  · intro hq p hp
    have hq' : (q.den == 1) = false := by simp [hq]
    simp only [calculator_tool, h, resultAndFormat, hq', Bool.false_eq_true, if_false,
      if_pos hp]

/-- C7 witness: `1/4` (value 0.25) formatted at precision 2 shows exactly two
digits after the point, and the whole-number result of `7 - 3` is rendered
as the plain integer string. -/
theorem c7_result_formatting_witness :
    (_evaluate_expression (_clean_expression "1/4") [] =
      .ok (.num ⟨1, 4⟩, ["Evaluating arithmetic expression: 1/4", "Result: 1/4"])) ∧
    (⟨1, 4⟩ : PyRat).den ≠ 1 ∧
    countAfterPoint (calculator_tool "1/4" (some ((2 : Nat) : Int)) []).formatted_result = 2 ∧
    (calculator_tool "7 - 3" (some 6) []).formatted_result = intRender (4 : Int) :=
  ⟨rfl, by decide,
    ((c7_result_formatting "1/4" [] ⟨1, 4⟩ _ rfl).2.1 (by decide) 2).2,
    ((c7_result_formatting "7 - 3" [] ⟨4, 1⟩ _ rfl).1 rfl (some 6)).1⟩

/-- C8 counterexample: without a colliding variable, `sqrt(4)` evaluates to
2; supplying the variable `sqrt = 99` makes the same expression fail with a
TypeError, because the caller variable replaces the function in the
evaluation namespace — the variable does change how the name resolves. -/
theorem c8_variable_shadows_function_counterexample :
    (calculator_tool "sqrt(4)" (some 6) []).result = OutVal.num ⟨2, 1⟩ ∧
    (calculator_tool "sqrt(4)" (some 6) []).error = none ∧
    (calculator_tool "sqrt(4)" (some 6) [("sqrt", ⟨99, 1⟩)]).result = OutVal.strv "Error" ∧
    (calculator_tool "sqrt(4)" (some 6) [("sqrt", ⟨99, 1⟩)]).error =
      some "TypeError: number object is not callable" :=
  ⟨rfl, rfl, rfl, rfl⟩

/-- C8 amended: a caller variable overrides a same-named constant (`pi`
supplied as 10 evaluates to 10), and it equally shadows a same-named
function in the evaluation namespace, while the unknown-function check
still validates against the fixed table and passes. -/
theorem c8_variable_merge_amended :
    (calculator_tool "pi" (some 6) [("pi", ⟨10, 1⟩)]).result = OutVal.num ⟨10, 1⟩ ∧
    (calculator_tool "pi" (some 6) [("pi", ⟨10, 1⟩)]).error = none ∧
    lookupEnv [("sqrt", ⟨99, 1⟩)] "sqrt" = some (.num ⟨99, 1⟩) ∧
    lookupEnv [] "sqrt" = some (.fnref "sqrt") ∧
    checkFunctions (findCalls (_clean_expression "sqrt(4)").data) = .ok () :=
  ⟨rfl, rfl, rfl, rfl, rfl⟩

/-- C10: when the input model fails validation, the entry point propagates
the validation failure to its caller and never returns a structured
`CalculatorOutput`, because `CalculatorInput(**input_data)` runs before the
try block. -/
theorem c10_validation_error_raises (d : List (String × RawVal)) (m : String)
    (h : parseCalculatorInput d = .error m) :
    calculatorEntry d = .error m ∧ ∀ out : CalculatorOutput, calculatorEntry d ≠ .ok out := by
  constructor
  · simp [calculatorEntry, h]
  · intro out hok
    rw [calculatorEntry, h] at hok
    cases hok

/-- C10 witness: an input mapping with no `expression` field fails validation
and the failure is raised, not converted into an `Error` output. -/
theorem c10_validation_error_raises_witness :
    parseCalculatorInput [] = .error "expression: Field required" ∧
    calculatorEntry [] = .error "expression: Field required" :=
  ⟨rfl, (c10_validation_error_raises [] "expression: Field required" rfl).1⟩
